import Mathlib

/-!
Shallow embedding of the in-memory repository core of the DSP DevX support
backend (src/backend/src/core/repository.py, models.py, deps.py and the
ticket/kb routers). Python dicts are modelled as association lists in
insertion order, Python `datetime.utcnow()` as an explicit `now : Nat`
argument, and `Optional` returns as `Option`.
-/

set_option autoImplicit false

namespace DevxPortal

/-! ### Association lists with Python dict semantics -/

/-- Insertion-ordered association list, modelling a Python `Dict[int, α]`. -/
abbrev AList (α : Type) := List (Nat × α)

/-- `d.get(k)`: first entry with key `k`, if any. -/
def lookupA {α : Type} : AList α → Nat → Option α
  | [], _ => none
  | (k, v) :: rest, i => if k = i then some v else lookupA rest i

/-- `d[k] = v`: replace the value at `k` in place, or append a new entry. -/
def setA {α : Type} : AList α → Nat → α → AList α
  | [], k, v => [(k, v)]
  | (k', v') :: rest, k, v =>
    if k' = k then (k, v) :: rest else (k', v') :: setA rest k v

/-- `d.pop(k, None)` (entry removal part): drop the first entry with key `k`. -/
def removeA {α : Type} : AList α → Nat → AList α
  | [], _ => []
  | (k', v') :: rest, k =>
    if k' = k then rest else (k', v') :: removeA rest k

theorem lookupA_nil {α : Type} (i : Nat) : lookupA ([] : AList α) i = none := rfl

theorem lookupA_setA_self {α : Type} (l : AList α) (k : Nat) (v : α) :
    lookupA (setA l k v) k = some v := by
  induction l with
  | nil => simp [setA, lookupA]
  | cons p rest ih =>
    by_cases h : p.1 = k
    · simp [setA, h, lookupA]
    · simp [setA, h, lookupA, ih]

theorem lookupA_setA_ne {α : Type} (l : AList α) (k k' : Nat) (v : α) (h : k' ≠ k) :
    lookupA (setA l k v) k' = lookupA l k' := by
  induction l with
  | nil => simp [setA, lookupA, Ne.symm h]
  | cons p rest ih =>
    obtain ⟨a, b⟩ := p
    by_cases hp : a = k
    · subst hp
      simp [setA, lookupA, Ne.symm h]
    · simp [setA, hp, lookupA, ih]

theorem lookupA_none_iff {α : Type} (l : AList α) (k : Nat) :
    lookupA l k = none ↔ ∀ p ∈ l, p.1 ≠ k := by
  induction l with
  | nil => simp [lookupA]
  | cons p rest ih =>
    by_cases h : p.1 = k
    · simp [lookupA, h]
    · simp [lookupA, h, ih]

theorem setA_eq_append {α : Type} (l : AList α) (k : Nat) (v : α)
    (h : lookupA l k = none) : setA l k v = l ++ [(k, v)] := by
  induction l with
  | nil => simp [setA]
  | cons p rest ih =>
    rw [lookupA] at h
    by_cases hp : p.1 = k
    · simp [hp] at h
    · simp [setA, hp] at *
      exact ih h

theorem lookupA_append_of_some {α : Type} (l l₂ : AList α) (i : Nat) (c : α)
    (h : lookupA l i = some c) : lookupA (l ++ l₂) i = some c := by
  induction l with
  | nil => simp [lookupA] at h
  | cons p rest ih =>
    rw [lookupA] at h
    by_cases hp : p.1 = i
    · simp [hp] at h
      simp [lookupA, hp, h]
    · simp [hp] at h
      simp [lookupA, hp, ih h]

theorem lookupA_append_of_none {α : Type} (l l₂ : AList α) (i : Nat)
    (h : lookupA l i = none) : lookupA (l ++ l₂) i = lookupA l₂ i := by
  induction l with
  | nil => simp
  | cons p rest ih =>
    rw [lookupA] at h
    by_cases hp : p.1 = i
    · simp [hp] at h
    · simp [hp] at h
      simp [lookupA, hp, ih h]

theorem removeA_of_lookup_none {α : Type} (l : AList α) (k : Nat)
    (h : lookupA l k = none) : removeA l k = l := by
  induction l with
  | nil => simp [removeA]
  | cons p rest ih =>
    rw [lookupA] at h
    by_cases hp : p.1 = k
    · simp [hp] at h
    · simp [hp] at h
      simp [removeA, hp, ih h]

theorem lookupA_removeA_of_none {α : Type} (l : AList α) (k i : Nat)
    (h : lookupA l i = none) : lookupA (removeA l k) i = none := by
  induction l with
  | nil => simp [removeA, lookupA]
  | cons p rest ih =>
    rw [lookupA] at h
    by_cases hpi : p.1 = i
    · simp [hpi] at h
    · simp [hpi] at h
      by_cases hpk : p.1 = k
      · simp [removeA, hpk, h]
      · simp [removeA, hpk, lookupA, hpi, ih h]

/-! ### Data model (models.py) -/

/-- A support ticket (models.Ticket); timestamps are abstract `Nat` instants. -/
structure Ticket where
  id : Nat
  title : String
  description : String
  status : String
  created_by : String
  created_at : Nat
  updated_at : Nat
  tags : List String
  deriving Repr, DecidableEq

/-- Payload for creating a ticket (models.TicketCreate); a request that
leaves `tags` unset is represented by `tags = []`, the pydantic default. -/
structure TicketCreate where
  title : String
  description : String
  created_by : String
  tags : List String
  deriving Repr, DecidableEq

/-- Partial update patch for a ticket (models.TicketUpdate); `none` is the
pydantic default `None`, meaning the field is absent from the patch. -/
structure TicketUpdate where
  title : Option String
  description : Option String
  status : Option String
  tags : Option (List String)
  deriving Repr, DecidableEq

/-! ### Ticket store (repository.InMemoryTicketRepository) -/

structure TicketStore where
  items : AList Ticket
  next_id : Nat
  deriving Repr, DecidableEq

/-- `InMemoryTicketRepository.__init__`. -/
def initialTicketStore : TicketStore := { items := [], next_id := 1 }

/-- `InMemoryTicketRepository.list`: all tickets in insertion order. -/
def TicketStore.listT (s : TicketStore) : List Ticket := s.items.map Prod.snd

/-- `InMemoryTicketRepository.get`. -/
def TicketStore.get (s : TicketStore) (ticket_id : Nat) : Option Ticket :=
  lookupA s.items ticket_id

/-- `InMemoryTicketRepository.create`; `payload.tags or []` is the identity
on lists but is mirrored literally. Both `datetime.utcnow()` calls of one
`create` are modelled by the single instant `now`. -/
def TicketStore.create (s : TicketStore) (payload : TicketCreate) (now : Nat) :
    Ticket × TicketStore :=
  let new : Ticket :=
    { id := s.next_id
      title := payload.title
      description := payload.description
      status := "open"
      created_by := payload.created_by
      created_at := now
      updated_at := now
      tags := if payload.tags = [] then [] else payload.tags }
  (new, { items := setA s.items s.next_id new, next_id := s.next_id + 1 })

/-- `InMemoryTicketRepository.update`. -/
def TicketStore.update (s : TicketStore) (ticket_id : Nat)
    (payload : TicketUpdate) (now : Nat) : Option Ticket × TicketStore :=
  match lookupA s.items ticket_id with
  | none => (none, s)
  | some existing =>
    let updated : Ticket :=
      { id := existing.id
        title := payload.title.getD existing.title
        description := payload.description.getD existing.description
        status := payload.status.getD existing.status
        created_by := existing.created_by
        created_at := existing.created_at
        updated_at := now
        tags := payload.tags.getD existing.tags }
    (some updated, { s with items := setA s.items ticket_id updated })

/-- `InMemoryTicketRepository.delete`. -/
def TicketStore.delete (s : TicketStore) (ticket_id : Nat) : Bool × TicketStore :=
  match lookupA s.items ticket_id with
  | none => (false, s)
  | some _ => (true, { s with items := removeA s.items ticket_id })

/-! ### Comment store (repository.InMemoryCommentRepository) -/

/-- A ticket comment (models.Comment). -/
structure Comment where
  id : Nat
  ticket_id : Nat
  author : String
  message : String
  created_at : Nat
  deriving Repr, DecidableEq

/-- Payload for creating a comment (models.CommentCreate). -/
structure CommentCreate where
  ticket_id : Nat
  author : String
  message : String
  deriving Repr, DecidableEq

structure CommentStore where
  items : AList Comment
  by_ticket : AList (List Nat)
  next_id : Nat
  deriving Repr, DecidableEq

/-- `InMemoryCommentRepository.__init__`. -/
def initialCommentStore : CommentStore := { items := [], by_ticket := [], next_id := 1 }

/-- Evaluate the comprehension `[d[i] for i in ids]` over a Python dict:
left to right, failing (`none`, a `KeyError`) at the first missing key. -/
def lookupList {α : Type} (l : AList α) : List Nat → Option (List α)
  | [] => some []
  | i :: is =>
    match lookupA l i, lookupList l is with
    | some v, some vs => some (v :: vs)
    | _, _ => none

/-- `InMemoryCommentRepository.list_for_ticket`. The indexed access
`self._items[i]` can raise `KeyError` in Python; that fallible path is the
`none` result of `lookupList`, so `some` means every index lookup succeeded. -/
def CommentStore.list_for_ticket (s : CommentStore) (ticket_id : Nat) :
    Option (List Comment) :=
  let ids := (lookupA s.by_ticket ticket_id).getD []
  lookupList s.items ids

/-- `InMemoryCommentRepository.create`; `_by_ticket.setdefault(tid, []).append(nid)`
appends `nid` to the existing index list, inserting an empty list first when
the key is new. The pydantic `default_factory=datetime.utcnow` on
`Comment.created_at` is the instant `now`. -/
def CommentStore.create (s : CommentStore) (payload : CommentCreate) (now : Nat) :
    Comment × CommentStore :=
  let new : Comment :=
    { id := s.next_id
      ticket_id := payload.ticket_id
      author := payload.author
      message := payload.message
      created_at := now }
  let ids := (lookupA s.by_ticket payload.ticket_id).getD []
  (new,
    { items := setA s.items s.next_id new
      by_ticket := setA s.by_ticket payload.ticket_id (ids ++ [s.next_id])
      next_id := s.next_id + 1 })

/-! ### KB store (repository.InMemoryKBRepository) -/

/-- A knowledge-base article (models.KBArticle). -/
structure KBArticle where
  id : Nat
  title : String
  content : String
  created_at : Nat
  updated_at : Nat
  tags : List String
  deriving Repr, DecidableEq

/-- Payload for creating a KB article (models.KBArticleCreate). -/
structure KBArticleCreate where
  title : String
  content : String
  tags : List String
  deriving Repr, DecidableEq

/-- Partial update patch for a KB article (models.KBArticleUpdate). -/
structure KBArticleUpdate where
  title : Option String
  content : Option String
  tags : Option (List String)
  deriving Repr, DecidableEq

structure KBStore where
  items : AList KBArticle
  next_id : Nat
  deriving Repr, DecidableEq

/-- `InMemoryKBRepository.__init__`. -/
def initialKBStore : KBStore := { items := [], next_id := 1 }

/-- `InMemoryKBRepository.list`. -/
def KBStore.listK (s : KBStore) : List KBArticle := s.items.map Prod.snd

/-- `InMemoryKBRepository.get`. -/
def KBStore.get (s : KBStore) (article_id : Nat) : Option KBArticle :=
  lookupA s.items article_id

/-- `InMemoryKBRepository.create`. -/
def KBStore.create (s : KBStore) (payload : KBArticleCreate) (now : Nat) :
    KBArticle × KBStore :=
  let new : KBArticle :=
    { id := s.next_id
      title := payload.title
      content := payload.content
      created_at := now
      updated_at := now
      tags := if payload.tags = [] then [] else payload.tags }
  (new, { items := setA s.items s.next_id new, next_id := s.next_id + 1 })

/-- `InMemoryKBRepository.update`. -/
def KBStore.update (s : KBStore) (article_id : Nat)
    (payload : KBArticleUpdate) (now : Nat) : Option KBArticle × KBStore :=
  match lookupA s.items article_id with
  | none => (none, s)
  | some existing =>
    let updated : KBArticle :=
      { id := existing.id
        title := payload.title.getD existing.title
        content := payload.content.getD existing.content
        created_at := existing.created_at
        updated_at := now
        tags := payload.tags.getD existing.tags }
    (some updated, { s with items := setA s.items article_id updated })

/-- `InMemoryKBRepository.delete`. -/
def KBStore.delete (s : KBStore) (article_id : Nat) : Bool × KBStore :=
  match lookupA s.items article_id with
  | none => (false, s)
  | some _ => (true, { s with items := removeA s.items article_id })

/-! ### Ticket operation sequences (for identifier and not-found claims) -/

/-- One mutating call against the ticket store. -/
inductive TicketOp where
  | create (payload : TicketCreate) (now : Nat)
  | update (ticket_id : Nat) (payload : TicketUpdate) (now : Nat)
  | delete (ticket_id : Nat)
  deriving Repr, DecidableEq

def applyTicketOp (s : TicketStore) : TicketOp → TicketStore
  | .create payload now => (s.create payload now).2
  | .update ticket_id payload now => (s.update ticket_id payload now).2
  | .delete ticket_id => (s.delete ticket_id).2

def runTicketOps (s : TicketStore) : List TicketOp → TicketStore
  | [] => s
  | op :: rest => runTicketOps (applyTicketOp s op) rest

/-- Identifiers returned by the `create` calls of a run, in call order. -/
def createdIds (s : TicketStore) : List TicketOp → List Nat
  | [] => []
  | .create payload now :: rest =>
    (s.create payload now).1.id :: createdIds (applyTicketOp s (.create payload now)) rest
  | op :: rest => createdIds (applyTicketOp s op) rest

/-- Number of `create` calls in an operation list. -/
def numCreates : List TicketOp → Nat
  | [] => 0
  | .create _ _ :: rest => numCreates rest + 1
  | _ :: rest => numCreates rest

theorem next_id_applyTicketOp_update (s : TicketStore) (i : Nat) (p : TicketUpdate) (now : Nat) :
    (applyTicketOp s (.update i p now)).next_id = s.next_id := by
  simp only [applyTicketOp, TicketStore.update]
  cases lookupA s.items i <;> rfl

theorem next_id_applyTicketOp_delete (s : TicketStore) (i : Nat) :
    (applyTicketOp s (.delete i)).next_id = s.next_id := by
  simp only [applyTicketOp, TicketStore.delete]
  cases lookupA s.items i <;> rfl

/-- The run of any operation list returns, from its `create` calls, exactly
the consecutive identifiers counting up from the initial `next_id`. -/
theorem createdIds_eq_range (ops : List TicketOp) :
    ∀ s : TicketStore, createdIds s ops = List.range' s.next_id (numCreates ops) := by
  induction ops with
  | nil => intro s; rfl
  | cons op rest ih =>
    intro s
    cases op with
    | create payload now =>
      simp only [createdIds, numCreates, List.range']
      rw [ih]
      rfl
    | update i p now =>
      simp only [createdIds, numCreates, ih, next_id_applyTicketOp_update]
    | delete i =>
      simp only [createdIds, numCreates, ih, next_id_applyTicketOp_delete]

/-! ### String helpers for the routers (`str.lower`, `in` on `str`) -/

/-- Python `s.lower()` (restricted to per-character lowering). -/
def lowerStr (s : String) : String := String.mk (s.data.map Char.toLower)

/-- `needle` starts `hay` (character lists). -/
def charsStart : List Char → List Char → Bool
  | [], _ => true
  | _ :: _, [] => false
  | c :: cs, d :: ds => c == d && charsStart cs ds

/-- Python `needle in hay` on strings: substring containment. -/
def charsContain : List Char → List Char → Bool
  | [], needle => needle.isEmpty
  | hd :: rest, needle => charsStart needle (hd :: rest) || charsContain rest needle

/-- Python `needle in hay` for `str` values. -/
def strContains (hay needle : String) : Bool := charsContain hay.data needle.data

theorem charsStart_iff (n h : List Char) : charsStart n h = true ↔ n <+: h := by
  induction n generalizing h with
  | nil => simp [charsStart, List.nil_prefix]
  | cons c cs ih =>
    cases h with
    | nil => simp [charsStart]
    | cons d ds =>
      rw [List.cons_prefix_cons]
      simp [charsStart, ih]

theorem charsContain_iff (hay n : List Char) : charsContain hay n = true ↔ n <:+: hay := by
  induction hay with
  | nil => simp [charsContain, List.infix_nil, List.isEmpty_iff]
  | cons d ds ih =>
    simp [charsContain, charsStart_iff, ih, List.infix_cons_iff]

/-- Case-insensitive substring relation, the spec reading of the routers
expression `q.lower() in s.lower()`. -/
def InsensitiveSubstr (q s : String) : Prop :=
  (lowerStr q).data <:+: (lowerStr s).data

theorem strContains_lower_iff (s q : String) :
    strContains (lowerStr s) (lowerStr q) = true ↔ InsensitiveSubstr q s := by
  simp [strContains, InsensitiveSubstr, charsContain_iff]

/-! ### Routers (api/routers/kb.py, api/routers/tickets.py, api/main.py) -/

/-- The comprehension predicate of `search_kb` (kb.py): the lowered query
occurs in the lowered title, content, or some lowered tag. The Python guards
`(tag or "")` and `(a.tags or [])` are identities on well-typed values and
are not repeated here. -/
def kbMatch (q : String) (a : KBArticle) : Bool :=
  strContains (lowerStr a.title) (lowerStr q)
  || strContains (lowerStr a.content) (lowerStr q)
  || a.tags.any (fun tag => strContains (lowerStr tag) (lowerStr q))

/-- `search_kb` (kb.py): filter the full listing by the match predicate,
then slice to the page window `[(page-1)*size, (page-1)*size+size)`. -/
def search_kb (s : KBStore) (q : String) (page size : Nat) : List KBArticle :=
  let items := s.listK
  let filtered := items.filter (kbMatch q)
  let start := (page - 1) * size
  (filtered.drop start).take size

/-- `list_tickets` (routers/tickets.py): `if status:` and `if q:` test
truthiness, so `None` and the empty string both skip the filter. -/
def list_tickets (s : TicketStore) (status q : Option String) (page size : Nat) :
    List Ticket :=
  let items0 := s.listT
  let items1 :=
    match status with
    | some st => if st == "" then items0 else items0.filter (fun t => t.status == st)
    | none => items0
  let items2 :=
    match q with
    | some qv =>
      if qv == "" then items1
      else
        let q_lower := lowerStr qv
        items1.filter (fun t =>
          strContains (lowerStr t.title) q_lower
          || strContains (lowerStr t.description) q_lower)
    | none => items1
  (items2.drop ((page - 1) * size)).take size

/-- `list_tickets` (api/main.py): the status/tag variant without pagination. -/
def main_list_tickets (s : TicketStore) (status tag : Option String) : List Ticket :=
  let items0 := s.listT
  let items1 :=
    match status with
    | some st => if st == "" then items0 else items0.filter (fun t => t.status == st)
    | none => items0
  match tag with
  | some tg =>
    if tg == "" then items1
    else items1.filter (fun t => (if t.tags = [] then [] else t.tags).contains tg)
  | none => items1

/-! ### Application state (core/deps.py singletons and the endpoints) -/

structure AppState where
  tickets : TicketStore
  comments : CommentStore
  kb : KBStore
  deriving Repr, DecidableEq

/-- `delete_ticket` endpoint: calls only `ticket_repo.delete`; the comment
and KB stores are not touched (the 404 branch is the `false` flag). -/
def AppState.delete_ticket (s : AppState) (ticket_id : Nat) : Bool × AppState :=
  let r := s.tickets.delete ticket_id
  (r.1, { s with tickets := r.2 })

/-- `list_comments` endpoint: delegates to `comment_repo.list_for_ticket`. -/
def AppState.list_comments (s : AppState) (ticket_id : Nat) : Option (List Comment) :=
  s.comments.list_for_ticket ticket_id

/-- `create_ticket` endpoint: delegates to `ticket_repo.create`. -/
def AppState.create_ticket (s : AppState) (payload : TicketCreate) (now : Nat) :
    Ticket × AppState :=
  let r := s.tickets.create payload now
  (r.1, { s with tickets := r.2 })

/-- `_seed_demo_data` (core/deps.py), run at import time on the freshly
constructed singleton stores; every `datetime.utcnow()` is the instant 0,
which no settled claim depends on. -/
def seedState : AppState :=
  let r1 := initialTicketStore.create
    { title := "Cannot deploy service on staging"
      description := "Deployment fails with timeout when pushing to staging."
      created_by := "alice"
      tags := ["deployment", "staging"] } 0
  let r2 := r1.2.create
    { title := "API rate limit errors"
      description := "Hitting 429 too frequently when running load tests."
      created_by := "bob"
      tags := ["api", "limits"] } 0
  let r3 := r2.2.create
    { title := "Build pipeline flaky"
      description := "Intermittent failures in CI on ubuntu-latest runner."
      created_by := "carol"
      tags := ["ci", "flaky"] } 0
  let c1 := initialCommentStore.create
    { ticket_id := r1.1.id, author := "support-bot"
      message := "We are investigating the staging cluster. ETA 2 hours." } 0
  let c2 := c1.2.create
    { ticket_id := r1.1.id, author := "alice"
      message := "Sharing logs from the last failed deployment." } 0
  let c3 := c2.2.create
    { ticket_id := r2.1.id, author := "dave"
      message := "Consider batching requests, docs suggest a 100 RPS soft limit." } 0
  let c4 := c3.2.create
    { ticket_id := r3.1.id, author := "support"
      message := "We increased retry budget on CI tasks to mitigate flakiness." } 0
  let k1 := initialKBStore.create
    { title := "How to configure staging deployments"
      content := "# Staging Deployments\n\nFollow these steps to configure staging..."
      tags := ["deployment", "staging"] } 0
  let k2 := k1.2.create
    { title := "Understanding API rate limits"
      content := "# API Rate Limits\n\nOur API enforces dynamic throttling..."
      tags := ["api", "limits"] } 0
  let k3 := k2.2.create
    { title := "Reducing CI flakiness"
      content := "# CI Flakiness\n\nUse retries and cache restoration..."
      tags := ["ci", "stability"] } 0
  { tickets := r3.2, comments := c4.2, kb := k3.2 }

/-! ### Comment and KB operation sequences (for the identifier and
not-found claims) -/

/-- Identifiers returned by a sequence of comment `create` calls (the only
mutating operation of the comment repository), in call order. -/
def createdCommentIds (s : CommentStore) : List (CommentCreate × Nat) → List Nat
  | [] => []
  | pc :: rest =>
    (s.create pc.1 pc.2).1.id :: createdCommentIds (s.create pc.1 pc.2).2 rest

theorem createdCommentIds_eq_range (ps : List (CommentCreate × Nat)) :
    ∀ s : CommentStore, createdCommentIds s ps = List.range' s.next_id ps.length := by
  induction ps with
  | nil => intro s; rfl
  | cons pc rest ih =>
    intro s
    simp only [createdCommentIds, List.length_cons, List.range']
    rw [ih]
    rfl

/-- One mutating call against the KB store. -/
inductive KBOp where
  | create (payload : KBArticleCreate) (now : Nat)
  | update (article_id : Nat) (payload : KBArticleUpdate) (now : Nat)
  | delete (article_id : Nat)
  deriving Repr, DecidableEq

def applyKBOp (s : KBStore) : KBOp → KBStore
  | .create payload now => (s.create payload now).2
  | .update article_id payload now => (s.update article_id payload now).2
  | .delete article_id => (s.delete article_id).2

def runKBOps (s : KBStore) : List KBOp → KBStore
  | [] => s
  | op :: rest => runKBOps (applyKBOp s op) rest

/-- Identifiers returned by the `create` calls of a KB run, in call order. -/
def createdKBIds (s : KBStore) : List KBOp → List Nat
  | [] => []
  | .create payload now :: rest =>
    (s.create payload now).1.id :: createdKBIds (applyKBOp s (.create payload now)) rest
  | op :: rest => createdKBIds (applyKBOp s op) rest

/-- Number of `create` calls in a KB operation list. -/
def numKBCreates : List KBOp → Nat
  | [] => 0
  | .create _ _ :: rest => numKBCreates rest + 1
  | _ :: rest => numKBCreates rest

theorem next_id_applyKBOp_update (s : KBStore) (i : Nat) (p : KBArticleUpdate) (now : Nat) :
    (applyKBOp s (.update i p now)).next_id = s.next_id := by
  simp only [applyKBOp, KBStore.update]
  cases lookupA s.items i <;> rfl

theorem next_id_applyKBOp_delete (s : KBStore) (i : Nat) :
    (applyKBOp s (.delete i)).next_id = s.next_id := by
  simp only [applyKBOp, KBStore.delete]
  cases lookupA s.items i <;> rfl

/-- The run of any KB operation list returns, from its `create` calls,
exactly the consecutive identifiers counting up from the initial
`next_id`. -/
theorem createdKBIds_eq_range (ops : List KBOp) :
    ∀ s : KBStore, createdKBIds s ops = List.range' s.next_id (numKBCreates ops) := by
  induction ops with
  | nil => intro s; rfl
  | cons op rest ih =>
    intro s
    cases op with
    | create payload now =>
      simp only [createdKBIds, numKBCreates, List.range']
      rw [ih]
      rfl
    | update i p now =>
      simp only [createdKBIds, numKBCreates, ih, next_id_applyKBOp_update]
    | delete i =>
      simp only [createdKBIds, numKBCreates, ih, next_id_applyKBOp_delete]

/-- Through any KB run, an identifier absent from the map that is not
created during the run is still absent at the end. -/
theorem lookupA_runKBOps_none (ops : List KBOp) :
    ∀ (s : KBStore) (i : Nat), lookupA s.items i = none →
      i ∉ createdKBIds s ops → lookupA (runKBOps s ops).items i = none := by
  induction ops with
  | nil => intro s i h _; exact h
  | cons op rest ih =>
    intro s i h hni
    cases op with
    | create p now =>
      have hne : i ≠ s.next_id := by
        intro he
        apply hni
        rw [createdKBIds, he]
        exact List.mem_cons_self _ _
      refine ih _ _ ?_ ?_
      · show lookupA (setA s.items s.next_id _) i = none
        rw [lookupA_setA_ne _ _ _ _ hne]
        exact h
      · intro hmem
        exact hni (by rw [createdKBIds]; exact List.mem_cons_of_mem _ hmem)
    | update j p now =>
      have hni' : i ∉ createdKBIds (applyKBOp s (.update j p now)) rest := hni
      cases hlu : lookupA s.items j with
      | none =>
        refine ih _ _ ?_ hni'
        show lookupA (s.update j p now).2.items i = none
        simp [KBStore.update, hlu, h]
      | some ex =>
        have hij : i ≠ j := by
          intro he
          rw [he, hlu] at h
          exact Option.noConfusion h
        refine ih _ _ ?_ hni'
        show lookupA (s.update j p now).2.items i = none
        simp [KBStore.update, hlu, lookupA_setA_ne _ _ _ _ hij, h]
    | delete j =>
      have hni' : i ∉ createdKBIds (applyKBOp s (.delete j)) rest := hni
      cases hlu : lookupA s.items j with
      | none =>
        refine ih _ _ ?_ hni'
        show lookupA (s.delete j).2.items i = none
        simp [KBStore.delete, hlu, h]
      | some ex =>
        refine ih _ _ ?_ hni'
        show lookupA (s.delete j).2.items i = none
        simp [KBStore.delete, hlu, lookupA_removeA_of_none _ _ _ h]

/-- An identifier list equal to the consecutive range from 1 is strictly
increasing, duplicate-free, and starts at 1 when non-empty. -/
theorem range_one_id_props (k : Nat) (ids : List Nat) (h : ids = List.range' 1 k) :
    ids.Pairwise (· < ·) ∧ ids.Nodup ∧ (0 < k → ids.head? = some 1) := by
  subst h
  have hlt := List.pairwise_lt_range' 1 k
  refine ⟨hlt, hlt.imp (fun hab => Nat.ne_of_lt hab), ?_⟩
  intro hk
  cases k with
  | zero => omega
  | succ n => simp [List.range']

/-! ### Claim theorems -/

/-- C1: on each freshly constructed store — ticket (any sequence of creates
interleaved with arbitrary updates and deletes), comment (any sequence of
creates, the only mutating comment operation), and KB (creates interleaved
with updates and deletes) — the create calls return exactly the consecutive
identifiers 1, 2, 3, …: pairwise distinct and strictly increasing in call
order, the first create returns 1, and an identifier is never reused after
a delete (distinctness holds across the whole run, deletes included). -/
theorem claim_C1_create_ids_strictly_increasing (ops : List TicketOp)
    (cps : List (CommentCreate × Nat)) (kops : List KBOp) :
    (createdIds initialTicketStore ops = List.range' 1 (numCreates ops) ∧
      (createdIds initialTicketStore ops).Pairwise (· < ·) ∧
      (createdIds initialTicketStore ops).Nodup ∧
      (0 < numCreates ops → (createdIds initialTicketStore ops).head? = some 1)) ∧
    (createdCommentIds initialCommentStore cps = List.range' 1 cps.length ∧
      (createdCommentIds initialCommentStore cps).Pairwise (· < ·) ∧
      (createdCommentIds initialCommentStore cps).Nodup ∧
      (0 < cps.length → (createdCommentIds initialCommentStore cps).head? = some 1)) ∧
    (createdKBIds initialKBStore kops = List.range' 1 (numKBCreates kops) ∧
      (createdKBIds initialKBStore kops).Pairwise (· < ·) ∧
      (createdKBIds initialKBStore kops).Nodup ∧
      (0 < numKBCreates kops → (createdKBIds initialKBStore kops).head? = some 1)) := by
  have ht : createdIds initialTicketStore ops = List.range' 1 (numCreates ops) :=
    createdIds_eq_range ops initialTicketStore
  have hc : createdCommentIds initialCommentStore cps = List.range' 1 cps.length :=
    createdCommentIds_eq_range cps initialCommentStore
  have hk : createdKBIds initialKBStore kops = List.range' 1 (numKBCreates kops) :=
    createdKBIds_eq_range kops initialKBStore
  exact ⟨⟨ht, range_one_id_props _ _ ht⟩, ⟨hc, range_one_id_props _ _ hc⟩,
    ⟨hk, range_one_id_props _ _ hk⟩⟩

theorem claim_C1_create_ids_witness :
    (0 < numCreates [TicketOp.create ⟨"X", "Y", "alice", []⟩ 0,
        TicketOp.delete 1, TicketOp.create ⟨"A", "B", "bob", []⟩ 1] ∧
      (createdIds initialTicketStore [TicketOp.create ⟨"X", "Y", "alice", []⟩ 0,
        TicketOp.delete 1, TicketOp.create ⟨"A", "B", "bob", []⟩ 1]).head? = some 1) ∧
    (0 < ([((⟨5, "bob", "hi"⟩ : CommentCreate), 0)]).length ∧
      (createdCommentIds initialCommentStore
        [((⟨5, "bob", "hi"⟩ : CommentCreate), 0)]).head? = some 1) ∧
    (0 < numKBCreates [KBOp.create ⟨"T", "C", []⟩ 0, KBOp.delete 1] ∧
      (createdKBIds initialKBStore
        [KBOp.create ⟨"T", "C", []⟩ 0, KBOp.delete 1]).head? = some 1) :=
  ⟨⟨by decide,
    (claim_C1_create_ids_strictly_increasing
      [TicketOp.create ⟨"X", "Y", "alice", []⟩ 0,
        TicketOp.delete 1, TicketOp.create ⟨"A", "B", "bob", []⟩ 1]
      [((⟨5, "bob", "hi"⟩ : CommentCreate), 0)]
      [KBOp.create ⟨"T", "C", []⟩ 0, KBOp.delete 1]).1.2.2.2 (by decide)⟩,
  ⟨by decide,
    (claim_C1_create_ids_strictly_increasing
      [TicketOp.create ⟨"X", "Y", "alice", []⟩ 0,
        TicketOp.delete 1, TicketOp.create ⟨"A", "B", "bob", []⟩ 1]
      [((⟨5, "bob", "hi"⟩ : CommentCreate), 0)]
      [KBOp.create ⟨"T", "C", []⟩ 0, KBOp.delete 1]).2.1.2.2.2 (by decide)⟩,
  ⟨by decide,
    (claim_C1_create_ids_strictly_increasing
      [TicketOp.create ⟨"X", "Y", "alice", []⟩ 0,
        TicketOp.delete 1, TicketOp.create ⟨"A", "B", "bob", []⟩ 1]
      [((⟨5, "bob", "hi"⟩ : CommentCreate), 0)]
      [KBOp.create ⟨"T", "C", []⟩ 0, KBOp.delete 1]).2.2.2.2.2 (by decide)⟩⟩

/-- C2: updating an existing ticket (and likewise a KB article) changes
exactly the fields present in the patch plus `updated_at`, which becomes the
current instant; `id`, `created_by` and `created_at` (which no patch
carries) and every patch field that is absent keep their pre-update values;
the updated entity is stored under the identifier and every other
identifier maps to its previous value. -/
theorem claim_C2_update_patch_frame :
    (∀ (s : TicketStore) (i : Nat) (p : TicketUpdate) (now : Nat) (old : Ticket),
      lookupA s.items i = some old →
      ∃ upd : Ticket,
        (s.update i p now).1 = some upd ∧
        upd.title = p.title.getD old.title ∧
        upd.description = p.description.getD old.description ∧
        upd.status = p.status.getD old.status ∧
        upd.tags = p.tags.getD old.tags ∧
        upd.id = old.id ∧
        upd.created_by = old.created_by ∧
        upd.created_at = old.created_at ∧
        upd.updated_at = now ∧
        lookupA (s.update i p now).2.items i = some upd ∧
        (∀ j, j ≠ i → lookupA (s.update i p now).2.items j = lookupA s.items j)) ∧
    (∀ (s : KBStore) (i : Nat) (p : KBArticleUpdate) (now : Nat) (old : KBArticle),
      lookupA s.items i = some old →
      ∃ upd : KBArticle,
        (s.update i p now).1 = some upd ∧
        upd.title = p.title.getD old.title ∧
        upd.content = p.content.getD old.content ∧
        upd.tags = p.tags.getD old.tags ∧
        upd.id = old.id ∧
        upd.created_at = old.created_at ∧
        upd.updated_at = now ∧
        lookupA (s.update i p now).2.items i = some upd ∧
        (∀ j, j ≠ i → lookupA (s.update i p now).2.items j = lookupA s.items j)) := by
  constructor
  · intro s i p now old h
    refine ⟨{ id := old.id, title := p.title.getD old.title,
              description := p.description.getD old.description,
              status := p.status.getD old.status, created_by := old.created_by,
              created_at := old.created_at, updated_at := now,
              tags := p.tags.getD old.tags },
      ?_, rfl, rfl, rfl, rfl, rfl, rfl, rfl, rfl, ?_, ?_⟩
    · simp [TicketStore.update, h]
    · simp [TicketStore.update, h, lookupA_setA_self]
    · intro j hj
      simp [TicketStore.update, h, lookupA_setA_ne _ _ _ _ hj]
  · intro s i p now old h
    refine ⟨{ id := old.id, title := p.title.getD old.title,
              content := p.content.getD old.content,
              created_at := old.created_at, updated_at := now,
              tags := p.tags.getD old.tags },
      ?_, rfl, rfl, rfl, rfl, rfl, rfl, ?_, ?_⟩
    · simp [KBStore.update, h]
    · simp [KBStore.update, h, lookupA_setA_self]
    · intro j hj
      simp [KBStore.update, h, lookupA_setA_ne _ _ _ _ hj]

/-- Concrete ticket used by witnesses. -/
def wTicket : Ticket :=
  { id := 1, title := "X", description := "Y", status := "open"
    created_by := "alice", created_at := 0, updated_at := 0, tags := [] }

/-- Concrete one-ticket store used by witnesses. -/
def wTicketStore : TicketStore := { items := [(1, wTicket)], next_id := 2 }

/-- Concrete status-only patch used by witnesses. -/
def wPatch : TicketUpdate :=
  { title := none, description := none, status := some "closed", tags := none }

theorem claim_C2_update_patch_frame_witness :
    lookupA wTicketStore.items 1 = some wTicket ∧
    (∃ upd : Ticket,
      (wTicketStore.update 1 wPatch 7).1 = some upd ∧
      upd.title = wPatch.title.getD wTicket.title ∧
      upd.description = wPatch.description.getD wTicket.description ∧
      upd.status = wPatch.status.getD wTicket.status ∧
      upd.tags = wPatch.tags.getD wTicket.tags ∧
      upd.id = wTicket.id ∧
      upd.created_by = wTicket.created_by ∧
      upd.created_at = wTicket.created_at ∧
      upd.updated_at = 7 ∧
      lookupA (wTicketStore.update 1 wPatch 7).2.items 1 = some upd ∧
      (∀ j, j ≠ 1 →
        lookupA (wTicketStore.update 1 wPatch 7).2.items j = lookupA wTicketStore.items j)) :=
  ⟨by decide, claim_C2_update_patch_frame.1 wTicketStore 1 wPatch 7 wTicket (by decide)⟩

/-- C4: the `delete_ticket` endpoint touches only the ticket store: for any
application state and ticket identifier, the comment store is unchanged,
every stored comment is still stored, and `list_comments` (hence
`list_for_ticket`) returns the same sequence before and after. -/
theorem claim_C4_ticket_delete_preserves_comments (s : AppState) (i : Nat) :
    (s.delete_ticket i).2.comments = s.comments ∧
    (∀ t, (s.delete_ticket i).2.list_comments t = s.list_comments t) ∧
    (∀ j c, lookupA s.comments.items j = some c →
      lookupA (s.delete_ticket i).2.comments.items j = some c) :=
  ⟨rfl, fun _ => rfl, fun _ _ h => h⟩

/-- Concrete comment (first seed comment) used by witnesses. -/
def wComment : Comment :=
  { id := 1, ticket_id := 1, author := "support-bot"
    message := "We are investigating the staging cluster. ETA 2 hours."
    created_at := 0 }

theorem claim_C4_ticket_delete_preserves_comments_witness :
    lookupA seedState.comments.items 1 = some wComment ∧
    lookupA (seedState.delete_ticket 1).2.comments.items 1 = some wComment :=
  ⟨by decide,
    (claim_C4_ticket_delete_preserves_comments seedState 1).2.2 1 wComment (by decide)⟩

/-- C8: creating a ticket always succeeds and returns a ticket with status
"open", `created_at` equal to `updated_at` (both the current instant), empty
tags when the input leaves tags unset (the pydantic default is the empty
list), and the freshly allocated identifier; the returned ticket is the one
stored under that identifier, and on a fresh store the identifier is 1. -/
theorem claim_C8_create_ticket_defaults (s : TicketStore) (p : TicketCreate) (now : Nat) :
    (s.create p now).1.status = "open" ∧
    (s.create p now).1.created_at = now ∧
    (s.create p now).1.updated_at = now ∧
    (p.tags = [] → (s.create p now).1.tags = []) ∧
    (s.create p now).1.id = s.next_id ∧
    lookupA (s.create p now).2.items (s.create p now).1.id = some (s.create p now).1 ∧
    (initialTicketStore.create p now).1.id = 1 := by
  refine ⟨rfl, rfl, rfl, ?_, rfl, ?_, rfl⟩
  · intro h
    simp [TicketStore.create, h]
  · exact lookupA_setA_self s.items s.next_id _

theorem claim_C8_create_ticket_defaults_witness :
    (⟨"X", "Y", "alice", []⟩ : TicketCreate).tags = [] ∧
    (initialTicketStore.create ⟨"X", "Y", "alice", []⟩ 3).1.tags = [] :=
  ⟨by decide,
    (claim_C8_create_ticket_defaults initialTicketStore ⟨"X", "Y", "alice", []⟩ 3).2.2.2.1
      (by decide)⟩

/-- Through any run, an identifier absent from the map that is not created
during the run is still absent at the end. -/
theorem lookupA_runTicketOps_none (ops : List TicketOp) :
    ∀ (s : TicketStore) (i : Nat), lookupA s.items i = none →
      i ∉ createdIds s ops → lookupA (runTicketOps s ops).items i = none := by
  induction ops with
  | nil => intro s i h _; exact h
  | cons op rest ih =>
    intro s i h hni
    cases op with
    | create p now =>
      have hne : i ≠ s.next_id := by
        intro he
        apply hni
        rw [createdIds, he]
        exact List.mem_cons_self _ _
      refine ih _ _ ?_ ?_
      · show lookupA (setA s.items s.next_id _) i = none
        rw [lookupA_setA_ne _ _ _ _ hne]
        exact h
      · intro hmem
        exact hni (by rw [createdIds]; exact List.mem_cons_of_mem _ hmem)
    | update j p now =>
      have hni' : i ∉ createdIds (applyTicketOp s (.update j p now)) rest := hni
      cases hlu : lookupA s.items j with
      | none =>
        refine ih _ _ ?_ hni'
        show lookupA (s.update j p now).2.items i = none
        simp [TicketStore.update, hlu, h]
      | some ex =>
        have hij : i ≠ j := by
          intro he
          rw [he, hlu] at h
          exact Option.noConfusion h
        refine ih _ _ ?_ hni'
        show lookupA (s.update j p now).2.items i = none
        simp [TicketStore.update, hlu, lookupA_setA_ne _ _ _ _ hij, h]
    | delete j =>
      have hni' : i ∉ createdIds (applyTicketOp s (.delete j)) rest := hni
      cases hlu : lookupA s.items j with
      | none =>
        refine ih _ _ ?_ hni'
        show lookupA (s.delete j).2.items i = none
        simp [TicketStore.delete, hlu, h]
      | some ex =>
        refine ih _ _ ?_ hni'
        show lookupA (s.delete j).2.items i = none
        simp [TicketStore.delete, hlu, lookupA_removeA_of_none _ _ _ h]

/-- C3: not-found behaviour. On any identifier absent from a store, `get`
and `update` return the absent sentinel, `delete` returns `false`, and the
state is unchanged (tickets and KB articles alike); `delete` returns `true`
exactly when an entity was present (both stores); an identifier never
returned by a create during a run from the fresh store is absent at its end
(both stores); and an identifier that is absent while below the allocation
counter (as after a delete) stays absent through any further operations
(both stores). -/
theorem claim_C3_not_found_sentinels :
    (∀ (s : TicketStore) (i : Nat) (p : TicketUpdate) (now : Nat),
      lookupA s.items i = none →
      s.get i = none ∧ s.update i p now = (none, s) ∧ s.delete i = (false, s)) ∧
    (∀ (s : KBStore) (i : Nat) (p : KBArticleUpdate) (now : Nat),
      lookupA s.items i = none →
      s.get i = none ∧ s.update i p now = (none, s) ∧ s.delete i = (false, s)) ∧
    (∀ (s : TicketStore) (i : Nat), (s.delete i).1 = true ↔ (lookupA s.items i).isSome) ∧
    (∀ (ops : List TicketOp) (i : Nat), i ∉ createdIds initialTicketStore ops →
      lookupA (runTicketOps initialTicketStore ops).items i = none) ∧
    (∀ (s : TicketStore) (i : Nat) (ops : List TicketOp),
      lookupA s.items i = none → i < s.next_id →
      lookupA (runTicketOps s ops).items i = none) ∧
    (∀ (s : KBStore) (i : Nat), (s.delete i).1 = true ↔ (lookupA s.items i).isSome) ∧
    (∀ (kops : List KBOp) (i : Nat), i ∉ createdKBIds initialKBStore kops →
      lookupA (runKBOps initialKBStore kops).items i = none) ∧
    (∀ (s : KBStore) (i : Nat) (kops : List KBOp),
      lookupA s.items i = none → i < s.next_id →
      lookupA (runKBOps s kops).items i = none) := by
  refine ⟨?_, ?_, ?_, ?_, ?_, ?_, ?_, ?_⟩
  · intro s i p now h
    exact ⟨h, by simp [TicketStore.update, h], by simp [TicketStore.delete, h]⟩
  · intro s i p now h
    exact ⟨h, by simp [KBStore.update, h], by simp [KBStore.delete, h]⟩
  · intro s i
    cases hlu : lookupA s.items i <;> simp [TicketStore.delete, hlu]
  · intro ops i hni
    exact lookupA_runTicketOps_none ops initialTicketStore i rfl hni
  · intro s i ops h hlt
    refine lookupA_runTicketOps_none ops s i h ?_
    rw [createdIds_eq_range]
    intro hmem
    have := (List.mem_range'_1).mp hmem
    omega
  · intro s i
    cases hlu : lookupA s.items i <;> simp [KBStore.delete, hlu]
  · intro kops i hni
    exact lookupA_runKBOps_none kops initialKBStore i rfl hni
  · intro s i kops h hlt
    refine lookupA_runKBOps_none kops s i h ?_
    rw [createdKBIds_eq_range]
    intro hmem
    have := (List.mem_range'_1).mp hmem
    omega

theorem claim_C3_not_found_sentinels_witness :
    (lookupA wTicketStore.items 99 = none ∧
      (wTicketStore.get 99 = none ∧
        wTicketStore.update 99 wPatch 7 = (none, wTicketStore) ∧
        wTicketStore.delete 99 = (false, wTicketStore))) ∧
    (lookupA initialKBStore.items 99 = none ∧
      (initialKBStore.get 99 = none ∧
        initialKBStore.update 99 ⟨none, none, none⟩ 7 = (none, initialKBStore) ∧
        initialKBStore.delete 99 = (false, initialKBStore))) :=
  ⟨⟨by decide, claim_C3_not_found_sentinels.1 wTicketStore 99 wPatch 7 (by decide)⟩,
    ⟨by decide,
      claim_C3_not_found_sentinels.2.1 initialKBStore 99 ⟨none, none, none⟩ 7 (by decide)⟩⟩

/-! ### Comment store reachability (claim C5) -/

/-- A reachable comment store: the fold of `create` calls (the only mutating
operation of the comment repository) over a starting store. -/
def runCommentCreates (s : CommentStore) : List (CommentCreate × Nat) → CommentStore
  | [] => s
  | pc :: rest => runCommentCreates (s.create pc.1 pc.2).2 rest

/-- The comments returned by a sequence of `create` calls, in call order. -/
def createdComments (s : CommentStore) : List (CommentCreate × Nat) → List Comment
  | [] => []
  | pc :: rest => (s.create pc.1 pc.2).1 :: createdComments (s.create pc.1 pc.2).2 rest

/-- Consistency invariant between the primary comment map and the
per-ticket secondary index: keys are below the allocation counter, and for
every ticket the indexed lookups all succeed and produce exactly the stored
comments with that `ticket_id`, in insertion order. -/
def CSInv (s : CommentStore) : Prop :=
  (∀ p ∈ s.items, p.1 < s.next_id) ∧
  (∀ t : Nat, lookupList s.items ((lookupA s.by_ticket t).getD [])
      = some ((s.items.map Prod.snd).filter (fun c => c.ticket_id == t)))

theorem lookupList_append_right {α : Type} (ids : List Nat) (l l₂ : AList α) (r : List α)
    (h : lookupList l ids = some r) : lookupList (l ++ l₂) ids = some r := by
  induction ids generalizing r with
  | nil => exact h
  | cons i is ih =>
    rw [lookupList] at h ⊢
    cases hfi : lookupA l i with
    | none => simp [hfi] at h
    | some v =>
      rw [hfi] at h
      cases hms : lookupList l is with
      | none => simp [hms] at h
      | some vs =>
        rw [hms] at h
        rw [lookupA_append_of_some _ _ _ _ hfi, ih vs hms]
        exact h

theorem lookupList_ids_append {α : Type} (l : AList α) (ids₁ ids₂ : List Nat)
    (r₁ r₂ : List α) (h₁ : lookupList l ids₁ = some r₁)
    (h₂ : lookupList l ids₂ = some r₂) :
    lookupList l (ids₁ ++ ids₂) = some (r₁ ++ r₂) := by
  induction ids₁ generalizing r₁ with
  | nil =>
    have h0 : some ([] : List α) = some r₁ := h₁
    injection h0 with h0'
    subst h0'
    simpa using h₂
  | cons i is ih =>
    rw [lookupList] at h₁
    cases hfi : lookupA l i with
    | none => simp [hfi] at h₁
    | some v =>
      rw [hfi] at h₁
      cases hms : lookupList l is with
      | none => simp [hms] at h₁
      | some vs =>
        rw [hms] at h₁
        rw [List.cons_append, lookupList, hfi, ih vs hms]
        injection h₁ with h₁'
        rw [← h₁']
        rfl

theorem CSInv_initial : CSInv initialCommentStore := by
  constructor
  · intro p hp
    simp [initialCommentStore] at hp
  · intro t
    rfl

/-- The create step of a comment appends the new pair to the primary map. -/
theorem create_items_append (s : CommentStore) (p : CommentCreate) (now : Nat)
    (hk : ∀ q ∈ s.items, q.1 < s.next_id) :
    (s.create p now).2.items = s.items ++ [(s.next_id, (s.create p now).1)] := by
  have hnone : lookupA s.items s.next_id = none := by
    rw [lookupA_none_iff]
    intro q hq
    exact Nat.ne_of_lt (hk q hq)
  exact setA_eq_append _ _ _ hnone

theorem CSInv_create (s : CommentStore) (p : CommentCreate) (now : Nat) (h : CSInv s) :
    CSInv (s.create p now).2 := by
  obtain ⟨hk, hidx⟩ := h
  have hnone : lookupA s.items s.next_id = none := by
    rw [lookupA_none_iff]
    intro q hq
    exact Nat.ne_of_lt (hk q hq)
  have hitems := create_items_append s p now hk
  constructor
  · intro q hq
    rw [hitems] at hq
    rcases List.mem_append.mp hq with h1 | h2
    · exact Nat.lt_succ_of_lt (hk q h1)
    · simp at h2
      rw [h2]
      exact Nat.lt_succ_self _
  · intro t
    have hlast : lookupA (s.items ++ [(s.next_id, (s.create p now).1)]) s.next_id
        = some (s.create p now).1 := by
      rw [lookupA_append_of_none _ _ _ hnone]
      simp [lookupA]
    by_cases ht : t = p.ticket_id
    · subst ht
      have hby : lookupA (s.create p now).2.by_ticket p.ticket_id
          = some (((lookupA s.by_ticket p.ticket_id).getD []) ++ [s.next_id]) :=
        lookupA_setA_self _ _ _
      rw [hby]
      simp only [Option.getD_some]
      rw [hitems]
      have hold := lookupList_append_right _ s.items [(s.next_id, (s.create p now).1)] _
        (hidx p.ticket_id)
      have hone : lookupList (s.items ++ [(s.next_id, (s.create p now).1)]) [s.next_id]
          = some [(s.create p now).1] := by
        rw [lookupList, hlast]
        rfl
      rw [lookupList_ids_append _ _ _ _ _ hold hone]
      congr 1
      rw [List.map_append, List.filter_append]
      simp [TicketStore.create, CommentStore.create]
    · have hby : lookupA (s.create p now).2.by_ticket t = lookupA s.by_ticket t :=
        lookupA_setA_ne _ _ _ _ ht
      rw [hby, hitems]
      rw [lookupList_append_right _ s.items [(s.next_id, (s.create p now).1)] _ (hidx t)]
      congr 1
      rw [List.map_append, List.filter_append]
      have : ((s.create p now).1.ticket_id == t) = false := by
        simp [CommentStore.create]
        exact fun he => ht he.symm
      simp [this]

theorem CSInv_run (ps : List (CommentCreate × Nat)) :
    ∀ s : CommentStore, CSInv s → CSInv (runCommentCreates s ps) := by
  induction ps with
  | nil => intro s h; exact h
  | cons pc rest ih =>
    intro s h
    exact ih _ (CSInv_create s pc.1 pc.2 h)

theorem items_runCommentCreates (ps : List (CommentCreate × Nat)) :
    ∀ s : CommentStore, CSInv s →
      (runCommentCreates s ps).items.map Prod.snd
        = s.items.map Prod.snd ++ createdComments s ps := by
  induction ps with
  | nil => intro s _; simp [runCommentCreates, createdComments]
  | cons pc rest ih =>
    intro s h
    show (runCommentCreates (s.create pc.1 pc.2).2 rest).items.map Prod.snd = _
    rw [ih _ (CSInv_create s pc.1 pc.2 h), create_items_append s pc.1 pc.2 h.1]
    simp [createdComments, runCommentCreates]

theorem createdComments_from_payloads (ps : List (CommentCreate × Nat)) :
    ∀ (s : CommentStore) (c : Comment), c ∈ createdComments s ps →
      ∃ pc ∈ ps, c.ticket_id = pc.1.ticket_id := by
  induction ps with
  | nil => intro s c hc; simp [createdComments] at hc
  | cons pc rest ih =>
    intro s c hc
    rw [createdComments] at hc
    rcases List.mem_cons.mp hc with h1 | h2
    · exact ⟨pc, List.mem_cons_self _ _, by rw [h1]; rfl⟩
    · obtain ⟨pc', hpc', he⟩ := ih _ c h2
      exact ⟨pc', List.mem_cons_of_mem _ hpc', he⟩

/-- C5: on every reachable comment store (any sequence of creates from the
fresh store) and every ticket identifier, `list_for_ticket` never hits a
failing index lookup (the result is `some _`), and returns exactly the
comments created with that `ticket_id`, in creation order; when no comment
was created with that `ticket_id` the result is the empty sequence. -/
theorem claim_C5_list_for_ticket_correct (ps : List (CommentCreate × Nat)) (t : Nat) :
    (runCommentCreates initialCommentStore ps).list_for_ticket t
      = some ((createdComments initialCommentStore ps).filter (fun c => c.ticket_id == t)) ∧
    ((∀ pc ∈ ps, pc.1.ticket_id ≠ t) →
      (runCommentCreates initialCommentStore ps).list_for_ticket t = some []) := by
  have hinv := CSInv_run ps initialCommentStore CSInv_initial
  have hmain : (runCommentCreates initialCommentStore ps).list_for_ticket t
      = some ((createdComments initialCommentStore ps).filter (fun c => c.ticket_id == t)) := by
    have h2 := hinv.2 t
    rw [items_runCommentCreates ps initialCommentStore CSInv_initial] at h2
    simpa [CommentStore.list_for_ticket, initialCommentStore] using h2
  refine ⟨hmain, ?_⟩
  intro hno
  rw [hmain]
  congr 1
  rw [List.filter_eq_nil_iff]
  intro c hc
  obtain ⟨pc, hpc, he⟩ := createdComments_from_payloads ps initialCommentStore c hc
  simp only [beq_iff_eq, he]
  exact hno pc hpc

theorem claim_C5_list_for_ticket_correct_witness :
    (∀ pc ∈ [((⟨5, "bob", "hi"⟩ : CommentCreate), 0)], pc.1.ticket_id ≠ 7) ∧
    (runCommentCreates initialCommentStore [((⟨5, "bob", "hi"⟩ : CommentCreate), 0)]).list_for_ticket 7
      = some [] :=
  ⟨by decide,
    (claim_C5_list_for_ticket_correct [((⟨5, "bob", "hi"⟩ : CommentCreate), 0)] 7).2 (by decide)⟩

/-! ### Search and listing claims (C6, C7, C9, C10) -/

theorem charsContain_nil (hay : List Char) : charsContain hay [] = true := by
  cases hay with
  | nil => rfl
  | cons c rest => rfl

theorem strContains_empty (s : String) : strContains s "" = true :=
  charsContain_nil s.data

/-- C6: for page ≥ 1 and size in [1, 200], `search_kb` equals the full
creation-order listing filtered by the case-insensitive substring match and
then sliced to the page window; every returned article matches the query in
title, content, or a tag (as a propositional case-insensitive substring
relation); the result is a subsequence of the matches, so creation order is
preserved; and a page past the end of the matches yields the empty
sequence. -/
theorem claim_C6_search_kb_correct (s : KBStore) (q : String) (page size : Nat)
    (hpage : 1 ≤ page) (hsize1 : 1 ≤ size) (hsize2 : size ≤ 200) :
    search_kb s q page size
      = ((s.listK.filter (kbMatch q)).drop ((page - 1) * size)).take size ∧
    (∀ a ∈ search_kb s q page size,
      InsensitiveSubstr q a.title ∨ InsensitiveSubstr q a.content ∨
        ∃ tag ∈ a.tags, InsensitiveSubstr q tag) ∧
    (search_kb s q page size).Sublist (s.listK.filter (kbMatch q)) ∧
    ((s.listK.filter (kbMatch q)).length ≤ (page - 1) * size →
      search_kb s q page size = []) := by
  refine ⟨rfl, ?_, ?_, ?_⟩
  · intro a ha
    have hmem : a ∈ s.listK.filter (kbMatch q) :=
      List.mem_of_mem_drop (List.mem_of_mem_take ha)
    have hm : kbMatch q a = true := List.of_mem_filter hmem
    simp only [kbMatch, Bool.or_eq_true, List.any_eq_true, strContains_lower_iff] at hm
    exact or_assoc.mp hm
  · exact (List.take_sublist _ _).trans (List.drop_sublist _ _)
  · intro hlen
    show ((s.listK.filter (kbMatch q)).drop ((page - 1) * size)).take size = []
    rw [List.drop_eq_nil_of_le hlen]
    simp

/-- Concrete KB articles and store used by witnesses (the two titles of the
search-correctness scenario in the spec). -/
def wKB1 : KBArticle :=
  { id := 1, title := "Staging Deployments", content := "c1"
    created_at := 0, updated_at := 0, tags := [] }

def wKB2 : KBArticle :=
  { id := 2, title := "API Rate Limits", content := "c2"
    created_at := 0, updated_at := 0, tags := [] }

def wKBStore : KBStore := { items := [(1, wKB1), (2, wKB2)], next_id := 3 }

theorem claim_C6_search_kb_correct_witness :
    (1 ≤ 1 ∧ 1 ≤ 50 ∧ 50 ≤ 200) ∧
    search_kb wKBStore "api" 1 50
      = ((wKBStore.listK.filter (kbMatch "api")).drop ((1 - 1) * 50)).take 50 ∧
    search_kb wKBStore "api" 1 50 = [wKB2] :=
  ⟨⟨by decide, by decide, by decide⟩,
    (claim_C6_search_kb_correct wKBStore "api" 1 50 (by decide) (by decide) (by decide)).1,
    by decide⟩

/-- C7 (counterexample): a status filter that is present but equal to the
empty string is skipped by the truthiness guard `if status:`, so the
listing keeps a ticket whose status ("open") differs from the given status
(""), contradicting the claim that the filter keeps only exact matches
whenever status is given. -/
theorem claim_C7_empty_status_counterexample :
    list_tickets wTicketStore (some "") none 1 50 = [wTicket] ∧
    wTicket.status = "open" := by
  constructor
  · decide
  · rfl

/-- Modelled from the spec sentence for the Query/Filter layer: keep exact
status matches when status is given, keep case-insensitive
title/description substring matches when q is given, compose with AND, then
slice to the page window. -/
def listTicketsSpec (s : TicketStore) (status q : Option String) (page size : Nat) :
    List Ticket :=
  let items0 : List Ticket := s.listT
  let items1 : List Ticket :=
    match status with
    | some st => items0.filter (fun t => t.status == st)
    | none => items0
  let items2 : List Ticket :=
    match q with
    | some qv => items1.filter (fun t =>
        strContains (lowerStr t.title) (lowerStr qv)
        || strContains (lowerStr t.description) (lowerStr qv))
    | none => items1
  (items2.drop ((page - 1) * size)).take size

theorem filter_empty_query (l : List Ticket) :
    l.filter (fun t => strContains (lowerStr t.title) (lowerStr "")
      || strContains (lowerStr t.description) (lowerStr "")) = l := by
  rw [List.filter_eq_self]
  intro a _
  rw [show lowerStr "" = "" from rfl]
  simp [strContains_empty]

/-- C7 (amended): as long as the status filter is not the given-but-empty
string (which the truthiness guard ignores, see the counterexample),
`list_tickets` computes exactly the spec composition: status filter, AND
query filter, then the page window — a given-but-empty q is skipped by the
code but filtering by the empty substring keeps everything, so the two
sides still agree; and the pagination scenario over five tickets returns
[T3, T4] for page 2 size 2, [T5] for page 3, and [] for page 4. -/
theorem claim_C7_list_tickets_window (s : TicketStore) (status q : Option String)
    (page size : Nat) (hst : status ≠ some "") :
    list_tickets s status q page size = listTicketsSpec s status q page size ∧
    (∀ t1 t2 t3 t4 t5 : Ticket,
      list_tickets ⟨[(1, t1), (2, t2), (3, t3), (4, t4), (5, t5)], 6⟩ none none 2 2
        = [t3, t4] ∧
      list_tickets ⟨[(1, t1), (2, t2), (3, t3), (4, t4), (5, t5)], 6⟩ none none 3 2
        = [t5] ∧
      list_tickets ⟨[(1, t1), (2, t2), (3, t3), (4, t4), (5, t5)], 6⟩ none none 4 2
        = []) := by
  constructor
  · rcases status with _ | st
    · rcases q with _ | qv
      · rfl
      · by_cases hqv : qv = ""
        · subst hqv
          show (s.listT.drop ((page - 1) * size)).take size = _
          rw [listTicketsSpec]
          simp only [filter_empty_query]
        · simp [list_tickets, listTicketsSpec, hqv]
    · have hst' : ¬st = "" := fun he => hst (by rw [he])
      rcases q with _ | qv
      · simp [list_tickets, listTicketsSpec, hst']
      · by_cases hqv : qv = ""
        · subst hqv
          simp only [list_tickets, listTicketsSpec, beq_iff_eq, hst', if_false,
            beq_self_eq_true, if_true, filter_empty_query]
        · simp [list_tickets, listTicketsSpec, hst', hqv]
  · intro t1 t2 t3 t4 t5
    refine ⟨rfl, rfl, rfl⟩

theorem claim_C7_list_tickets_window_witness :
    (some "open" : Option String) ≠ some "" ∧
    list_tickets wTicketStore (some "open") none 1 50
      = listTicketsSpec wTicketStore (some "open") none 1 50 :=
  ⟨by decide,
    (claim_C7_list_tickets_window wTicketStore (some "open") none 1 50 (by decide)).1⟩

/-- C9: the module-level seeding leaves the singleton stores with 3 tickets
under identifiers 1, 2, 3, 4 comments, and 3 KB articles; the ticket
counter stands at 4, so the first create performed through the API returns
identifier 4; and the initial listing of each store is non-empty. -/
theorem claim_C9_seed_demo_data :
    seedState.tickets.items.map Prod.fst = [1, 2, 3] ∧
    seedState.comments.items.length = 4 ∧
    seedState.kb.items.length = 3 ∧
    seedState.tickets.next_id = 4 ∧
    (∀ (p : TicketCreate) (now : Nat), (seedState.create_ticket p now).1.id = 4) ∧
    seedState.tickets.listT.isEmpty = false ∧
    seedState.comments.items.isEmpty = false ∧
    seedState.kb.listK.isEmpty = false := by
  refine ⟨by decide, by decide, by decide, by decide, ?_, by decide, by decide, by decide⟩
  intro p now
  show seedState.tickets.next_id = 4
  decide

/-- C10: an empty-string status filter (and likewise an empty q) is treated
exactly as an absent filter by `list_tickets` — in both the paginated
router and the main-module variant — because the guard tests truthiness;
and whenever a non-empty status filter is applied, every returned ticket
has exactly that status, so a ticket whose status is the empty string is
never selected by a status-match filter. -/
theorem claim_C10_empty_filters_ignored :
    (∀ (s : TicketStore) (q : Option String) (page size : Nat),
      list_tickets s (some "") q page size = list_tickets s none q page size) ∧
    (∀ (s : TicketStore) (status : Option String) (page size : Nat),
      list_tickets s status (some "") page size = list_tickets s status none page size) ∧
    (∀ (s : TicketStore) (tag : Option String),
      main_list_tickets s (some "") tag = main_list_tickets s none tag) ∧
    (∀ (s : TicketStore) (v : String), v ≠ "" →
      ∀ (q : Option String) (page size : Nat) (t : Ticket),
        t ∈ list_tickets s (some v) q page size → t.status = v) := by
  refine ⟨?_, ?_, ?_, ?_⟩
  · intro s q page size
    rfl
  · intro s status page size
    cases status <;> rfl
  · intro s tag
    rfl
  · intro s v hv q page size t ht
    have hv' : ¬v = "" := hv
    have ht2 := List.mem_of_mem_drop (List.mem_of_mem_take ht)
    have ht1 : t ∈ s.listT.filter (fun tt => tt.status == v) := by
      rcases q with _ | qv
      · simpa [hv'] using ht2
      · by_cases hqv : qv = ""
        · subst hqv
          simpa [hv'] using ht2
        · have ht3 : t ∈ (s.listT.filter (fun tt => tt.status == v)).filter
              (fun tt => strContains (lowerStr tt.title) (lowerStr qv)
                || strContains (lowerStr tt.description) (lowerStr qv)) := by
            simpa [hv', hqv] using ht2
          exact List.mem_of_mem_filter ht3
    have := List.of_mem_filter ht1
    exact beq_iff_eq.mp this

theorem claim_C10_empty_filters_ignored_witness :
    ("open" : String) ≠ "" ∧ wTicket.status = "open" :=
  ⟨by decide,
    claim_C10_empty_filters_ignored.2.2.2 wTicketStore "open" (by decide) none 1 50 wTicket
      (by decide)⟩

end DevxPortal
